import Mathlib

/-!
Verification of the AI-hiring-experiment app (`src/app.py`) against its
natural-language specification.  The Python source is shallowly embedded:
pure functions become Lean functions, the Streamlit script-rerun loop
becomes an explicit step function over a session-state record, and
telemetry `post_log` calls become elements of an event list.  Machine
integers are modelled as `Int`/`Nat` (Python integers are unbounded, and
the one masked quantity, the LCG state, is reduced `&&& 0x7fffffff`
exactly as in the source).
-/

/-! ## Experiment parameters (src/app.py lines 11-20) -/

def N_CANDIDATES : Nat := 12

def SHORTLIST_CAP_K : Nat := 5

def BIAS_DELTA : Int := 6

def AI_THRESHOLD : Int := 70

def BIASED_ONLY_ON_BORDERLINE : Bool := true

/-! ## Data model

A candidate catalog entry: `candidate_id`, a `card` of CV attributes
(the fields the scoring code reads via `c.get(...)`, with the same
defaults), `case_type`, `pair_id`, `demo_group`.  The card's numeric
fields are `Int` because the source applies Python `int(...)` to raw
JSON values; the flag-like fields are strings compared case-insensitively
against "yes", exactly as `str(...).lower() == "yes"` does. -/

structure Card where
  YearsExperience : Int := 0
  Certifications : Int := 0
  Education : String := ""
  Portfolio : String := ""
  RequirementsMet : String := ""
deriving DecidableEq, Repr

structure Candidate where
  candidate_id : String := ""
  card : Card := {}
  case_type : String := ""
  pair_id : String := ""
  demo_group : String := ""
deriving DecidableEq, Repr

/-- Output record of `ai_score_and_rec` (the Python dict
`{"score": ..., "rec": ..., "top3": ...}`). -/
structure AIOut where
  score : Int
  recommendation : String
  top3 : List String
deriving DecidableEq, Repr

/-! ## String primitives

Python's `str.lower()`, `str.upper()` and `str.strip()` are modelled at
the character-list level (equivalent to `String.toLower`, `String.toUpper`
and `String.trim` on the ASCII data the app handles, but defined by
structural recursion so that proofs can evaluate them). -/

def strLower (s : String) : String := String.mk (s.data.map Char.toLower)

def strUpper (s : String) : String := String.mk (s.data.map Char.toUpper)

def strTrim (s : String) : String :=
  String.mk
    (((s.data.dropWhile Char.isWhitespace).reverse.dropWhile
        Char.isWhitespace).reverse)

/-! ## Deterministic assignment (src/app.py lines 31-40) -/

/-- `hexDigitVal` gives the value of one hex digit (Python `int(_,16)`
digit semantics; non-hex characters cannot occur on the uuid-hex inputs
the app feeds it, and default to 0 here). -/
def hexDigitVal (c : Char) : Nat :=
  if '0' ≤ c ∧ c ≤ '9' then c.toNat - 48
  else if 'a' ≤ c ∧ c ≤ 'f' then c.toNat - 87
  else if 'A' ≤ c ∧ c ≤ 'F' then c.toNat - 55
  else 0

/-- `stable_seed_int(hex_id)`: parse the first 8 hex characters as an
integer (src/app.py line 33). -/
def stable_seed_int (hex_id : String) : Nat :=
  (hex_id.take 8).toList.foldl (fun a c => 16 * a + hexDigitVal c) 0

/-- `assign_condition(seed)` (src/app.py lines 35-40). -/
def assign_condition (seed : Nat) : String × String :=
  let api := if seed % 2 = 0 then "HIGH_API" else "LOW_API"
  let alg := if (seed / 2) % 2 = 0 then "BIASED" else "JOB_MATCH"
  (api, alg)

/-! ## Scoring engine (src/app.py lines 48-100) -/

/-- `rubric_ground_truth(candidate)` (src/app.py lines 48-64). -/
def rubric_ground_truth (candidate : Candidate) : String :=
  let c := candidate.card
  let req := strLower c.RequirementsMet = "yes"
  let port := strLower c.Portfolio = "yes"
  let invite := req ∧ port ∧ 4 ≤ c.YearsExperience ∧
    (c.Education ∈ ["MSc", "PhD"] ∨ 1 ≤ c.Certifications)
  if invite then "INVITE" else "NO_INVITE"

/-- `ai_score_and_rec(candidate, condition_alg)` (src/app.py lines
66-100).  The module constant `BIASED_ONLY_ON_BORDERLINE` is passed as
the explicit parameter `borderOnly`; the app always calls it with
`BIASED_ONLY_ON_BORDERLINE`. -/
def ai_score_and_rec (candidate : Candidate) (condition_alg : String)
    (borderOnly : Bool) : AIOut :=
  let c := candidate.card
  let years := c.YearsExperience
  let certs := c.Certifications
  let edu := c.Education
  let score : Int := 55
  let score := score + min years 8 * 4
  let score := score + min certs 3 * 4
  let score := score + (if edu ∈ ["MSc", "PhD"] then 8 else 0)
  let score := score + (if strLower c.Portfolio = "yes" then 6 else 0)
  let score := score + (if strLower c.RequirementsMet = "yes" then 6 else -6)
  let score :=
    if condition_alg = "BIASED" then
      if (¬ borderOnly = true) ∨ candidate.case_type = "borderline" then
        if candidate.demo_group = "favored" then score + BIAS_DELTA else score
      else score
    else score
  let score := max 0 (min 100 score)
  let recc := if AI_THRESHOLD ≤ score then "INVITE" else "NO_INVITE"
  { score := score, recommendation := recc,
    top3 := [s!"Years experience: {years}", s!"Education: {edu}",
             s!"Certifications: {certs}"] }

/-- The score formula exactly as the specification states it (claim C1):
base 55, +4*min(years,8), +4*min(certifications,3), +8 for MSc/PhD,
+6 for portfolio, +6 (else -6) for requirements, +6 when BIASED and favored and
(restriction off or borderline); written from the spec's words, to be
compared with `ai_score_and_rec`. -/
def specScoreFormula (candidate : Candidate) (condition_alg : String)
    (borderOnly : Bool) : Int :=
  let c := candidate.card
  55 + 4 * min c.YearsExperience 8 + 4 * min c.Certifications 3
    + (if c.Education = "MSc" ∨ c.Education = "PhD" then 8 else 0)
    + (if strLower c.Portfolio = "yes" then 6 else 0)
    + (if strLower c.RequirementsMet = "yes" then 6 else -6)
    + (if condition_alg = "BIASED" ∧ candidate.demo_group = "favored" ∧
          (borderOnly = false ∨ candidate.case_type = "borderline")
       then 6 else 0)

/-! ## Trial-order shuffle (src/app.py lines 146-155) -/

/-- One LCG update: `rnd = (1103515245 * rnd + 12345) & 0x7fffffff`
(src/app.py line 152). -/
def lcg (rnd : Nat) : Nat := (1103515245 * rnd + 12345) &&& 0x7fffffff

/-- Python's simultaneous `order[i], order[j] = order[j], order[i]`
(src/app.py line 154): both reads refer to the original list. -/
def listSwap (l : List Nat) (i j : Nat) : List Nat :=
  (l.set i (l.getD j 0)).set j (l.getD i 0)

/-- One iteration of the shuffle loop body (src/app.py lines 151-154):
advance the LCG, take the swap index modulo `i+1`, swap. -/
def shuffleStep (p : List Nat × Nat) (i : Nat) : List Nat × Nat :=
  let rnd := lcg p.2
  let j := rnd % (i + 1)
  (listSwap p.1 i j, rnd)

/-- The loop indices `range(N_CANDIDATES - 1, 0, -1)` = [11, 10, ..., 1]. -/
def downIdx : List Nat := (List.range' 1 (N_CANDIDATES - 1)).reverse

/-- The whole session-init shuffle (src/app.py lines 148-155): start from
`list(range(N_CANDIDATES))` and the seed, fold the loop body over the
descending indices. -/
def shuffleOrder (seed : Nat) : List Nat :=
  (downIdx.foldl shuffleStep (List.range N_CANDIDATES, seed)).1

/-- `pid[-8:].upper()` (src/app.py line 191). -/
def completionCode (pid : String) : String := strUpper (pid.takeRight 8)

/-! ## Claims about the scoring engine and condition assignment -/

/-- C1: for every candidate card and algorithm condition, the AI score
equals the spec's formula (base 55, experience/certification/education/
portfolio/requirements terms, +6 bias when BIASED, favored and the
borderline gate passes) clamped to [0,100], and the recommendation is
INVITE iff the clamped score is at least 70. -/
theorem C1_score_formula_and_threshold (cand : Candidate) (alg : String)
    (borderOnly : Bool) :
    (ai_score_and_rec cand alg borderOnly).score
      = max 0 (min 100 (specScoreFormula cand alg borderOnly)) ∧
    ((ai_score_and_rec cand alg borderOnly).recommendation = "INVITE"
      ↔ AI_THRESHOLD ≤ (ai_score_and_rec cand alg borderOnly).score) := by
  constructor
  · simp only [ai_score_and_rec, specScoreFormula, BIAS_DELTA,
      List.mem_cons, List.not_mem_nil, or_false, Bool.not_eq_true]
    by_cases halg : alg = "BIASED" <;>
      by_cases hdemo : cand.demo_group = "favored" <;>
      by_cases hbord : borderOnly = false ∨ cand.case_type = "borderline" <;>
      simp only [halg, hdemo, hbord, if_true, if_false, ite_true, ite_false,
        eq_self_iff_true, and_true, true_and, and_false, false_and, if_pos,
        String.reduceEq, not_false_eq_true, iff_true, iff_false] <;>
      (congr 2 <;> ring)
  · simp only [ai_score_and_rec, AI_THRESHOLD]
    split <;> simp_all

/-- C4: condition assignment is a pure function of the seed: disclosure
is HIGH_API exactly for even seeds, algorithm is BIASED exactly when
`seed / 2` is even, and the result is always one of the four
combinations. -/
theorem C4_assign_condition (seed : Nat) :
    ((assign_condition seed).1 = "HIGH_API" ↔ seed % 2 = 0) ∧
    ((assign_condition seed).1 = "LOW_API" ↔ ¬ seed % 2 = 0) ∧
    ((assign_condition seed).2 = "BIASED" ↔ (seed / 2) % 2 = 0) ∧
    ((assign_condition seed).2 = "JOB_MATCH" ↔ ¬ (seed / 2) % 2 = 0) ∧
    assign_condition seed ∈
      [("HIGH_API", "BIASED"), ("HIGH_API", "JOB_MATCH"),
       ("LOW_API", "BIASED"), ("LOW_API", "JOB_MATCH")] := by
  unfold assign_condition
  split_ifs <;> simp_all

/-- C9: under the JOB_MATCH algorithm the scorer never reads `demo_group`
or `case_type`: two candidates identical except in those fields get the
same score and the same recommendation. -/
theorem C9_job_match_noninterference (c1 c2 : Candidate) (borderOnly : Bool)
    (hcard : c1.card = c2.card) (hid : c1.candidate_id = c2.candidate_id)
    (hpair : c1.pair_id = c2.pair_id) :
    (ai_score_and_rec c1 "JOB_MATCH" borderOnly).score
      = (ai_score_and_rec c2 "JOB_MATCH" borderOnly).score ∧
    (ai_score_and_rec c1 "JOB_MATCH" borderOnly).recommendation
      = (ai_score_and_rec c2 "JOB_MATCH" borderOnly).recommendation := by
  unfold ai_score_and_rec
  simp [hcard]

/-- Witness for C9 at a concrete pair differing in demo_group and
case_type. -/
theorem C9_job_match_noninterference_witness :
    (ai_score_and_rec
        { candidate_id := "w", card := { YearsExperience := 3 },
          case_type := "borderline", pair_id := "p", demo_group := "favored" }
        "JOB_MATCH" true).score
      = (ai_score_and_rec
          { candidate_id := "w", card := { YearsExperience := 3 },
            case_type := "clear_pos", pair_id := "p", demo_group := "majority" }
          "JOB_MATCH" true).score := by
  exact (C9_job_match_noninterference
    { candidate_id := "w", card := { YearsExperience := 3 },
      case_type := "borderline", pair_id := "p", demo_group := "favored" }
    { candidate_id := "w", card := { YearsExperience := 3 },
      case_type := "clear_pos", pair_id := "p", demo_group := "majority" }
    true rfl rfl rfl).1

/-! ## Claim C2: the biased-pair property -/

/-- The qualification-only part of the AI score (src/app.py lines 78-83),
before bias and clamping. -/
def cardBase (c : Card) : Int :=
  55 + min c.YearsExperience 8 * 4 + min c.Certifications 3 * 4
    + (if c.Education ∈ ["MSc", "PhD"] then 8 else 0)
    + (if strLower c.Portfolio = "yes" then 6 else 0)
    + (if strLower c.RequirementsMet = "yes" then 6 else -6)

lemma ai_biased_favored_score (c : Candidate) (h1 : c.case_type = "borderline")
    (h2 : c.demo_group = "favored") :
    (ai_score_and_rec c "BIASED" BIASED_ONLY_ON_BORDERLINE).score
      = max 0 (min 100 (cardBase c.card + 6)) := by
  simp [ai_score_and_rec, cardBase, BIASED_ONLY_ON_BORDERLINE, BIAS_DELTA, h1, h2]

lemma ai_biased_unfavored_score (c : Candidate) (h2 : ¬ c.demo_group = "favored") :
    (ai_score_and_rec c "BIASED" BIASED_ONLY_ON_BORDERLINE).score
      = max 0 (min 100 (cardBase c.card)) := by
  simp [ai_score_and_rec, cardBase, BIASED_ONLY_ON_BORDERLINE, h2]

lemma ai_rec_eq (c : Candidate) (alg : String) (b : Bool) :
    (ai_score_and_rec c alg b).recommendation
      = (if AI_THRESHOLD ≤ (ai_score_and_rec c alg b).score
         then "INVITE" else "NO_INVITE") := rfl

lemma cardBase_nonneg (c : Card) (hy : 0 ≤ c.YearsExperience)
    (hc : 0 ≤ c.Certifications) : 0 ≤ cardBase c := by
  unfold cardBase; split_ifs <;> omega

lemma rec_ne_iff (X Y : Int) :
    ((if (70:Int) ≤ X then "INVITE" else "NO_INVITE")
      ≠ (if (70:Int) ≤ Y then "INVITE" else "NO_INVITE"))
      ↔ ¬ ((70:Int) ≤ X ↔ (70:Int) ≤ Y) := by
  split_ifs <;> simp_all <;> omega

/-- C2 (amended): for otherwise-identical borderline candidates differing
only in demo_group, under BIASED, with nonnegative experience and
certification counts: the favored score exceeds the other by exactly 6
whenever the unfavored score is at most 94 (the upper clamp at 100
otherwise absorbs part of the bonus), and the recommendations differ iff
the unfavored score lies in [64,69], in which case the favored candidate
gets INVITE and the other NO_INVITE. -/
theorem C2_bias_pair_amended (c1 c2 : Candidate)
    (hcard : c1.card = c2.card) (hid : c1.candidate_id = c2.candidate_id)
    (hpair : c1.pair_id = c2.pair_id)
    (hb1 : c1.case_type = "borderline") (hb2 : c2.case_type = "borderline")
    (hd1 : c1.demo_group = "favored") (hd2 : ¬ c2.demo_group = "favored")
    (hy : 0 ≤ c2.card.YearsExperience) (hc : 0 ≤ c2.card.Certifications) :
    ((ai_score_and_rec c2 "BIASED" BIASED_ONLY_ON_BORDERLINE).score ≤ 94 →
      (ai_score_and_rec c1 "BIASED" BIASED_ONLY_ON_BORDERLINE).score
        = (ai_score_and_rec c2 "BIASED" BIASED_ONLY_ON_BORDERLINE).score + 6) ∧
    ((ai_score_and_rec c1 "BIASED" BIASED_ONLY_ON_BORDERLINE).recommendation
        ≠ (ai_score_and_rec c2 "BIASED" BIASED_ONLY_ON_BORDERLINE).recommendation
      ↔ 64 ≤ (ai_score_and_rec c2 "BIASED" BIASED_ONLY_ON_BORDERLINE).score ∧
        (ai_score_and_rec c2 "BIASED" BIASED_ONLY_ON_BORDERLINE).score ≤ 69) ∧
    ((ai_score_and_rec c1 "BIASED" BIASED_ONLY_ON_BORDERLINE).recommendation
        ≠ (ai_score_and_rec c2 "BIASED" BIASED_ONLY_ON_BORDERLINE).recommendation →
      (ai_score_and_rec c1 "BIASED" BIASED_ONLY_ON_BORDERLINE).recommendation
          = "INVITE" ∧
      (ai_score_and_rec c2 "BIASED" BIASED_ONLY_ON_BORDERLINE).recommendation
          = "NO_INVITE") := by
  have h1 := ai_biased_favored_score c1 hb1 hd1
  have h2 := ai_biased_unfavored_score c2 hd2
  rw [hcard] at h1
  have hbase := cardBase_nonneg c2.card hy hc
  have r1 := ai_rec_eq c1 "BIASED" BIASED_ONLY_ON_BORDERLINE
  have r2 := ai_rec_eq c2 "BIASED" BIASED_ONLY_ON_BORDERLINE
  simp only [AI_THRESHOLD] at r1 r2
  rw [r1, r2, h1, h2]
  refine ⟨by intro hle; omega, ?_, ?_⟩
  · rw [rec_ne_iff]; omega
  · rw [rec_ne_iff]
    intro hne
    have hA : (70:Int) ≤ max 0 (min 100 (cardBase c2.card + 6)) := by omega
    have hB : ¬ (70:Int) ≤ max 0 (min 100 (cardBase c2.card)) := by omega
    rw [if_pos hA, if_neg hB]
    exact ⟨rfl, rfl⟩

/-- Candidate pair on which claim C2 fails as stated: a fully-qualified
borderline card whose unbiased score already clamps at 100. -/
def cexCard : Card :=
  { YearsExperience := 8, Certifications := 3, Education := "MSc",
    Portfolio := "yes", RequirementsMet := "yes" }

def cexFavored : Candidate :=
  { candidate_id := "cx1", card := cexCard, case_type := "borderline",
    pair_id := "px", demo_group := "favored" }

def cexMajority : Candidate :=
  { candidate_id := "cx1", card := cexCard, case_type := "borderline",
    pair_id := "px", demo_group := "majority" }

/-- Counterexample to C2 as stated: both members of this biased borderline
pair score 100 (clamp), so the favored score is not 6 points higher. -/
theorem C2_counterexample :
    ¬ ((ai_score_and_rec cexFavored "BIASED" BIASED_ONLY_ON_BORDERLINE).score
        = (ai_score_and_rec cexMajority "BIASED" BIASED_ONLY_ON_BORDERLINE).score
          + 6) := by
  decide

def wCard2 : Card := { YearsExperience := 1, RequirementsMet := "yes" }

def wFavored : Candidate :=
  { candidate_id := "w2", card := wCard2, case_type := "borderline",
    pair_id := "pw", demo_group := "favored" }

def wMajority : Candidate :=
  { candidate_id := "w2", card := wCard2, case_type := "borderline",
    pair_id := "pw", demo_group := "majority" }

/-- Witness for the amended C2 at a concrete borderline pair with
unbiased score 65: the bias lifts 65 to 71 and flips the
recommendation. -/
theorem C2_bias_pair_amended_witness :
    (ai_score_and_rec wFavored "BIASED" BIASED_ONLY_ON_BORDERLINE).score
      = (ai_score_and_rec wMajority "BIASED" BIASED_ONLY_ON_BORDERLINE).score
        + 6 ∧
    (ai_score_and_rec wFavored "BIASED" BIASED_ONLY_ON_BORDERLINE).recommendation
      = "INVITE" ∧
    (ai_score_and_rec wMajority "BIASED" BIASED_ONLY_ON_BORDERLINE).recommendation
      = "NO_INVITE" := by
  have h := C2_bias_pair_amended wFavored wMajority rfl rfl rfl rfl rfl rfl
    (by decide) (by decide) (by decide)
  exact ⟨h.1 (by decide), h.2.2 (by decide)⟩

/-! ## Claim C3: the shuffle is a permutation -/

lemma cons_set_perm (xs : List Nat) (m : Nat) (a : Nat) (h : m < xs.length) :
    List.Perm (xs.get ⟨m, h⟩ :: xs.set m a) (a :: xs) := by
  induction xs generalizing m with
  | nil => simp at h
  | cons x t ih =>
    cases m with
    | zero => exact List.Perm.swap a x t
    | succ k =>
      have hk : k < t.length := Nat.lt_of_succ_lt_succ h
      exact ((List.Perm.swap x (t.get ⟨k, hk⟩) (t.set k a)).trans
        ((ih k hk).cons x)).trans (List.Perm.swap a x t)

lemma listSwap_perm (l : List Nat) (i j : Nat) (hi : i < l.length)
    (hj : j < l.length) : List.Perm (listSwap l i j) l := by
  induction l generalizing i j with
  | nil => simp at hi
  | cons x t ih =>
    cases i with
    | zero =>
      cases j with
      | zero => simp [listSwap]
      | succ m =>
        have hm : m < t.length := Nat.lt_of_succ_lt_succ hj
        have : listSwap (x :: t) 0 (m + 1) = t.get ⟨m, hm⟩ :: t.set m x := by
          simp [listSwap, List.getD_eq_getElem?_getD, List.getElem?_eq_getElem hm,
            List.get_eq_getElem]
        rw [this]
        exact cons_set_perm t m x hm
    | succ k =>
      cases j with
      | zero =>
        have hk : k < t.length := Nat.lt_of_succ_lt_succ hi
        have : listSwap (x :: t) (k + 1) 0 = t.get ⟨k, hk⟩ :: t.set k x := by
          simp [listSwap, List.getD_eq_getElem?_getD, List.getElem?_eq_getElem hk,
            List.get_eq_getElem]
        rw [this]
        exact cons_set_perm t k x hk
      | succ m =>
        have hk : k < t.length := Nat.lt_of_succ_lt_succ hi
        have hm : m < t.length := Nat.lt_of_succ_lt_succ hj
        have : listSwap (x :: t) (k + 1) (m + 1) = x :: listSwap t k m := by
          simp [listSwap]
        rw [this]
        exact (ih k m hk hm).cons x

lemma foldl_shuffleStep_perm (is : List Nat) :
    ∀ (acc : List Nat) (r : Nat), (∀ i ∈ is, i < acc.length) →
      List.Perm ((is.foldl shuffleStep (acc, r)).1) acc := by
  induction is with
  | nil => intro acc r _; exact List.Perm.refl acc
  | cons i it ih =>
    intro acc r hmem
    have hi : i < acc.length := hmem i (List.mem_cons_self i it)
    have hj : lcg r % (i + 1) < acc.length :=
      Nat.lt_of_le_of_lt (Nat.le_of_lt_succ (Nat.mod_lt _ (Nat.succ_pos i))) hi
    have hswap := listSwap_perm acc i (lcg r % (i + 1)) hi hj
    have hlen : (listSwap acc i (lcg r % (i + 1))).length = acc.length :=
      hswap.length_eq
    have hmem' : ∀ x ∈ it, x < (listSwap acc i (lcg r % (i + 1))).length := by
      intro x hx; rw [hlen]; exact hmem x (List.mem_cons_of_mem i hx)
    have hrest := ih (listSwap acc i (lcg r % (i + 1))) (lcg r) hmem'
    have heq : (List.foldl shuffleStep (acc, r) (i :: it)).1
        = (List.foldl shuffleStep (listSwap acc i (lcg r % (i + 1)), lcg r) it).1 := by
      simp [List.foldl_cons, shuffleStep]
    rw [heq]
    exact hrest.trans hswap

/-- C3: for every seed, the session-init shuffle (backward Fisher-Yates
loop over the LCG `rnd = (1103515245 * rnd + 12345) mod 2^31`) returns a
permutation of `[0, ..., N_CANDIDATES - 1]`; being a pure function of the
seed, it is bit-for-bit reproducible. -/
theorem C3_shuffle_is_permutation (seed : Nat) :
    List.Perm (shuffleOrder seed) (List.range N_CANDIDATES) ∧
    shuffleOrder seed = shuffleOrder seed := by
  refine ⟨?_, rfl⟩
  apply foldl_shuffleStep_perm
  intro i hi
  rw [List.length_range]
  have : ∀ x ∈ downIdx, x < N_CANDIDATES := by decide
  exact this i hi

/-! ## Session state machine (src/app.py lines 136-344)

The Streamlit script reruns top-to-bottom on every user interaction.  We
model one rerun carrying one user action as a step function on a session
state; `stopped` records that `st.stop()` ran on the completion screen
(which renders no widgets, so no further interaction can occur in the
session).  Telemetry posts become `Event` values. -/

structure SessionState where
  participant_id : String
  condition_api : String
  condition_alg : String
  candidates : List Candidate
  order : List Nat
  trial_index : Nat
  shortlisted : Nat
  task_start_ms : Nat
  trial_start_ms : Nat
  decision_locked : Bool
  pending_justification : Bool
  last_candidate_id : Option String
  details_open_ms : Option Nat
  stopped : Bool
deriving DecidableEq, Repr

inductive Event where
  | session_start
  | trial_start (cid : String)
  | detail_open
  | detail_close (auto : Bool)
  | decision (d : String)
  | override_justification (text : String)
  | flag_review
  | session_end (code : String)
deriving DecidableEq, Repr

/-- One user interaction per script rerun. -/
inductive UserAction where
  | invite
  | reject
  | submitJust (txt : String)
  | next
  | openDetails
  | closeDetails
  | flagReview
deriving DecidableEq, Repr

/-- The current candidate,
`st.session_state.candidates[st.session_state.order[ti]]`
(src/app.py lines 197-198; the real app guarantees the indices are in
range, so out-of-range reads default). -/
def currentCandidate (s : SessionState) : Candidate :=
  s.candidates.getD (s.order.getD s.trial_index 0) {}

/-- The script part that runs before any widget handler: the completion
block (src/app.py lines 190-194, emitting `session_end` and stopping) and
the once-per-trial `trial_start` block (src/app.py lines 204-216). -/
def renderHeader (t : Nat) (s : SessionState) : SessionState × List Event :=
  if N_CANDIDATES ≤ s.trial_index then
    ({ s with stopped := true },
     [Event.session_end (completionCode s.participant_id)])
  else
    let cand := currentCandidate s
    if ¬ s.last_candidate_id = some cand.candidate_id then
      ({ s with trial_start_ms := t,
                last_candidate_id := some cand.candidate_id,
                details_open_ms := none },
       [Event.trial_start cand.candidate_id])
    else (s, [])

/-- `invite_disabled` (src/app.py line 273). -/
def inviteDisabled (s : SessionState) : Bool :=
  s.decision_locked || decide (SHORTLIST_CAP_K ≤ s.shortlisted)

/-- `reject_disabled` (src/app.py line 274). -/
def rejectDisabled (s : SessionState) : Bool := s.decision_locked

/-- The decision handler (src/app.py lines 286-315): record the decision,
bump the shortlist on Invite, lock, and under HIGH_API require a
justification when the decision overrides the AI recommendation. -/
def decisionHandler (invite : Bool) (s : SessionState) :
    SessionState × List Event :=
  let ai := ai_score_and_rec (currentCandidate s) s.condition_alg
    BIASED_ONLY_ON_BORDERLINE
  let d := if invite then "INVITE" else "NO_INVITE"
  let override := ¬ d = ai.recommendation
  { s with
    shortlisted := if invite then s.shortlisted + 1 else s.shortlisted,
    decision_locked := true,
    pending_justification :=
      if s.condition_api = "HIGH_API" ∧ override then true
      else s.pending_justification }
    |> fun s1 => (s1, [Event.decision d])

/-- The justification gate (src/app.py lines 318-328): text whose
trimmed length is below 5 only warns (third component `true`) and changes
nothing; otherwise emit `override_justification` with the trimmed text
and clear the pending flag. -/
def justificationHandler (txt : String) (s : SessionState) :
    SessionState × List Event × Bool :=
  if (strTrim txt).length < 5 then (s, [], true)
  else ({ s with pending_justification := false },
        [Event.override_justification (strTrim txt)], false)

/-- `can_next` (src/app.py line 331). -/
def canNext (s : SessionState) : Bool :=
  s.decision_locked && ! s.pending_justification

/-- The Next-candidate handler body (src/app.py lines 332-343, everything
before `st.rerun()`): auto-close an open detail panel, advance the trial
index, clear the per-trial flags and the last-candidate marker. -/
def nextHandler (s : SessionState) : SessionState × List Event :=
  let p : SessionState × List Event :=
    match s.details_open_ms with
    | some _ => ({ s with details_open_ms := none }, [Event.detail_close true])
    | none => (s, [])
  ({ p.1 with trial_index := p.1.trial_index + 1,
              decision_locked := false,
              pending_justification := false,
              last_candidate_id := none }, p.2)

/-- One full script rerun processing one user action: nothing happens if
the script already stopped; otherwise the header block runs first (and
`st.stop()` on the completion screen skips all widget handlers), then the
widget handler for the action, with disabled buttons doing nothing.
`UserAction.next` additionally folds in the `st.rerun()` the handler
triggers, which immediately re-runs the header block. -/
def step (t : Nat) (a : UserAction) (s : SessionState) :
    SessionState × List Event :=
  if s.stopped then (s, []) else
  let r := renderHeader t s
  let s1 := r.1
  if s1.stopped then r else
  match a with
  | UserAction.invite =>
      if inviteDisabled s1 then r
      else
        let p := decisionHandler true s1
        (p.1, r.2 ++ p.2)
  | UserAction.reject =>
      if rejectDisabled s1 then r
      else
        let p := decisionHandler false s1
        (p.1, r.2 ++ p.2)
  | UserAction.submitJust txt =>
      if s1.pending_justification then
        let p := justificationHandler txt s1
        (p.1, r.2 ++ p.2.1)
      else r
  | UserAction.next =>
      if canNext s1 then
        let p := nextHandler s1
        let q := renderHeader t p.1
        (q.1, r.2 ++ p.2 ++ q.2)
      else r
  | UserAction.openDetails =>
      match s1.details_open_ms with
      | none => ({ s1 with details_open_ms := some t }, r.2 ++ [Event.detail_open])
      | some _ => r
  | UserAction.closeDetails =>
      match s1.details_open_ms with
      | some _ => ({ s1 with details_open_ms := none },
                   r.2 ++ [Event.detail_close false])
      | none => r
  | UserAction.flagReview =>
      if s1.condition_api = "HIGH_API" then (s1, r.2 ++ [Event.flag_review])
      else r

/-- Session initialisation (src/app.py lines 137-169) followed by the
header blocks of the first render. -/
def initSession (pid : String) (cands : List Candidate) (t : Nat) :
    SessionState × List Event :=
  let seed := stable_seed_int pid
  let c := assign_condition seed
  let s0 : SessionState :=
    { participant_id := pid, condition_api := c.1, condition_alg := c.2,
      candidates := cands, order := shuffleOrder seed,
      trial_index := 0, shortlisted := 0,
      task_start_ms := t, trial_start_ms := t,
      decision_locked := false, pending_justification := false,
      last_candidate_id := none, details_open_ms := none, stopped := false }
  let r := renderHeader t s0
  (r.1, Event.session_start :: r.2)

/-- Run a list of timestamped user actions from a state. -/
def runSteps (s : SessionState) (acts : List (Nat × UserAction)) :
    SessionState × List Event :=
  match acts with
  | [] => (s, [])
  | (t, a) :: rest =>
    let p := step t a s
    let q := runSteps p.1 rest
    (q.1, p.2 ++ q.2)

/-- A whole session: initialisation, then the user's actions. -/
def sessionRun (pid : String) (cands : List Candidate) (t0 : Nat)
    (acts : List (Nat × UserAction)) : SessionState × List Event :=
  let i := initSession pid cands t0
  let q := runSteps i.1 acts
  (q.1, i.2 ++ q.2)

/-- Count of `session_end` events. -/
def seCount (evs : List Event) : Nat :=
  evs.countP (fun e => match e with | Event.session_end _ => true | _ => false)

/-! ## Component lemmas for the step function -/

def isSessionEnd : Event → Bool :=
  fun e => match e with | Event.session_end _ => true | _ => false

@[simp] lemma renderHeader_participant (t : Nat) (s : SessionState) :
    ((renderHeader t s).1).participant_id = s.participant_id := by
  simp only [renderHeader]; split_ifs <;> rfl

@[simp] lemma renderHeader_api (t : Nat) (s : SessionState) :
    ((renderHeader t s).1).condition_api = s.condition_api := by
  simp only [renderHeader]; split_ifs <;> rfl

@[simp] lemma renderHeader_alg (t : Nat) (s : SessionState) :
    ((renderHeader t s).1).condition_alg = s.condition_alg := by
  simp only [renderHeader]; split_ifs <;> rfl

@[simp] lemma renderHeader_candidates (t : Nat) (s : SessionState) :
    ((renderHeader t s).1).candidates = s.candidates := by
  simp only [renderHeader]; split_ifs <;> rfl

@[simp] lemma renderHeader_order (t : Nat) (s : SessionState) :
    ((renderHeader t s).1).order = s.order := by
  simp only [renderHeader]; split_ifs <;> rfl

@[simp] lemma renderHeader_shortlisted (t : Nat) (s : SessionState) :
    ((renderHeader t s).1).shortlisted = s.shortlisted := by
  simp only [renderHeader]; split_ifs <;> rfl

@[simp] lemma renderHeader_trial_index (t : Nat) (s : SessionState) :
    ((renderHeader t s).1).trial_index = s.trial_index := by
  simp only [renderHeader]; split_ifs <;> rfl

@[simp] lemma renderHeader_locked (t : Nat) (s : SessionState) :
    ((renderHeader t s).1).decision_locked = s.decision_locked := by
  simp only [renderHeader]; split_ifs <;> rfl

@[simp] lemma renderHeader_pending (t : Nat) (s : SessionState) :
    ((renderHeader t s).1).pending_justification = s.pending_justification := by
  simp only [renderHeader]; split_ifs <;> rfl

@[simp] lemma renderHeader_task_start (t : Nat) (s : SessionState) :
    ((renderHeader t s).1).task_start_ms = s.task_start_ms := by
  simp only [renderHeader]; split_ifs <;> rfl

lemma renderHeader_stopped (t : Nat) (s : SessionState) :
    ((renderHeader t s).1).stopped
      = (decide (N_CANDIDATES ≤ s.trial_index) || s.stopped) := by
  simp only [renderHeader]; split_ifs with h1 h2 <;> simp [h1]

lemma renderHeader_filter (t : Nat) (s : SessionState) :
    ((renderHeader t s).2).filter isSessionEnd
      = if N_CANDIDATES ≤ s.trial_index
        then [Event.session_end (completionCode s.participant_id)] else [] := by
  simp only [renderHeader]; split_ifs with h1 h2 <;> simp [isSessionEnd, h1]

@[simp] lemma decisionHandler_trial_index (b : Bool) (s : SessionState) :
    ((decisionHandler b s).1).trial_index = s.trial_index := rfl

@[simp] lemma decisionHandler_stopped (b : Bool) (s : SessionState) :
    ((decisionHandler b s).1).stopped = s.stopped := rfl

@[simp] lemma decisionHandler_participant (b : Bool) (s : SessionState) :
    ((decisionHandler b s).1).participant_id = s.participant_id := rfl

@[simp] lemma decisionHandler_shortlisted (b : Bool) (s : SessionState) :
    ((decisionHandler b s).1).shortlisted
      = (if b then s.shortlisted + 1 else s.shortlisted) := rfl

@[simp] lemma decisionHandler_filter (b : Bool) (s : SessionState) :
    ((decisionHandler b s).2).filter isSessionEnd = [] := by
  unfold decisionHandler; simp [isSessionEnd]

@[simp] lemma justificationHandler_trial_index (txt : String) (s : SessionState) :
    ((justificationHandler txt s).1).trial_index = s.trial_index := by
  unfold justificationHandler; split_ifs <;> rfl

@[simp] lemma justificationHandler_stopped (txt : String) (s : SessionState) :
    ((justificationHandler txt s).1).stopped = s.stopped := by
  unfold justificationHandler; split_ifs <;> rfl

@[simp] lemma justificationHandler_participant (txt : String) (s : SessionState) :
    ((justificationHandler txt s).1).participant_id = s.participant_id := by
  unfold justificationHandler; split_ifs <;> rfl

@[simp] lemma justificationHandler_shortlisted (txt : String) (s : SessionState) :
    ((justificationHandler txt s).1).shortlisted = s.shortlisted := by
  unfold justificationHandler; split_ifs <;> rfl

@[simp] lemma justificationHandler_filter (txt : String) (s : SessionState) :
    ((justificationHandler txt s).2.1).filter isSessionEnd = [] := by
  unfold justificationHandler; split_ifs <;> simp [isSessionEnd]

@[simp] lemma nextHandler_trial_index (s : SessionState) :
    ((nextHandler s).1).trial_index = s.trial_index + 1 := by
  unfold nextHandler; cases s.details_open_ms <;> rfl

@[simp] lemma nextHandler_stopped (s : SessionState) :
    ((nextHandler s).1).stopped = s.stopped := by
  unfold nextHandler; cases s.details_open_ms <;> rfl

@[simp] lemma nextHandler_participant (s : SessionState) :
    ((nextHandler s).1).participant_id = s.participant_id := by
  unfold nextHandler; cases s.details_open_ms <;> rfl

@[simp] lemma nextHandler_shortlisted (s : SessionState) :
    ((nextHandler s).1).shortlisted = s.shortlisted := by
  unfold nextHandler; cases s.details_open_ms <;> rfl

@[simp] lemma nextHandler_filter (s : SessionState) :
    ((nextHandler s).2).filter isSessionEnd = [] := by
  unfold nextHandler; cases s.details_open_ms <;> simp [isSessionEnd]

lemma step_stopped_noop (t : Nat) (a : UserAction) (s : SessionState)
    (hs : s.stopped = true) : step t a s = (s, []) := by
  unfold step; simp [hs]

lemma step_shortlisted (t : Nat) (a : UserAction) (s : SessionState) :
    (step t a s).1.shortlisted = s.shortlisted ∨
    ((step t a s).1.shortlisted = s.shortlisted + 1 ∧
      s.shortlisted < SHORTLIST_CAP_K) := by
  by_cases hs : s.stopped = true
  · rw [step_stopped_noop t a s hs]; left; rfl
  · cases a <;> simp only [step] <;> rw [if_neg hs] <;>
      split_ifs with h1 h2 <;> (try split) <;>
      simp_all [inviteDisabled, SHORTLIST_CAP_K] <;> omega

lemma step_trial_index (t : Nat) (a : UserAction) (s : SessionState) :
    (step t a s).1.trial_index = s.trial_index ∨
    (a = UserAction.next ∧ s.decision_locked = true ∧
      s.pending_justification = false ∧
      (step t a s).1.trial_index = s.trial_index + 1) := by
  by_cases hs : s.stopped = true
  · rw [step_stopped_noop t a s hs]; left; rfl
  · cases a <;> simp only [step] <;> rw [if_neg hs] <;>
      split_ifs with h1 h2 <;> (try split) <;>
      simp_all [canNext]

lemma step_next_advances (t : Nat) (s : SessionState) (h1 : s.stopped = false)
    (h2 : canNext s = true) (h3 : s.trial_index < N_CANDIDATES) :
    (step t UserAction.next s).1.trial_index = s.trial_index + 1 := by
  have hs : ¬ s.stopped = true := by simp [h1]
  simp only [step]; rw [if_neg hs]
  have hh : (renderHeader t s).1.stopped = false := by
    rw [renderHeader_stopped]; simp [h1, Nat.not_le.mpr h3]
  rw [if_neg (by simp [hh])]
  have hcn : canNext (renderHeader t s).1 = true := by
    simp only [canNext, renderHeader_locked, renderHeader_pending]
    simpa [canNext] using h2
  rw [if_pos hcn]
  simp

lemma runSteps_shortlisted_le (acts : List (Nat × UserAction)) :
    ∀ s : SessionState, s.shortlisted ≤ SHORTLIST_CAP_K →
      (runSteps s acts).1.shortlisted ≤ SHORTLIST_CAP_K := by
  induction acts with
  | nil => intro s h; exact h
  | cons p rest ih =>
    intro s h
    obtain ⟨t, a⟩ := p
    have hrun : (runSteps s ((t, a) :: rest)).1
        = (runSteps (step t a s).1 rest).1 := rfl
    rw [hrun]
    apply ih
    rcases step_shortlisted t a s with h1 | ⟨h1, h2⟩
    · omega
    · simp only [SHORTLIST_CAP_K] at *; omega

/-- C5: in every session state reachable from session start, the
shortlist counter is at most the cap (5); at the cap the Invite control
is disabled, and an Invite action at the cap leaves the counter
unchanged. -/
theorem C5_shortlist_cap (pid : String) (cands : List Candidate) (t0 : Nat)
    (acts : List (Nat × UserAction)) (t : Nat) :
    (sessionRun pid cands t0 acts).1.shortlisted ≤ SHORTLIST_CAP_K ∧
    ((sessionRun pid cands t0 acts).1.shortlisted < SHORTLIST_CAP_K ∨
      inviteDisabled (sessionRun pid cands t0 acts).1 = true) ∧
    ((step t UserAction.invite (sessionRun pid cands t0 acts).1).1.shortlisted
        = (sessionRun pid cands t0 acts).1.shortlisted ∨
      (sessionRun pid cands t0 acts).1.shortlisted < SHORTLIST_CAP_K) := by
  have hinit : (initSession pid cands t0).1.shortlisted = 0 := by
    simp [initSession]
  have hle : (sessionRun pid cands t0 acts).1.shortlisted ≤ SHORTLIST_CAP_K := by
    have hrw : (sessionRun pid cands t0 acts).1
        = (runSteps (initSession pid cands t0).1 acts).1 := rfl
    rw [hrw]
    apply runSteps_shortlisted_le
    rw [hinit]
    exact Nat.zero_le _
  refine ⟨hle, ?_, ?_⟩
  · by_cases hlt :
      (sessionRun pid cands t0 acts).1.shortlisted < SHORTLIST_CAP_K
    · exact Or.inl hlt
    · refine Or.inr ?_
      have hge := Nat.not_lt.mp hlt
      simp [inviteDisabled, hge]
  · rcases step_shortlisted t UserAction.invite (sessionRun pid cands t0 acts).1
      with h1 | ⟨h1, h2⟩
    · exact Or.inl h1
    · exact Or.inr h2

/-- C6: the trial index never advances except by an enabled Next action:
any step either leaves the trial index unchanged or is a Next with the
decision locked and no justification pending, incrementing it by one;
Next is enabled exactly when locked and not pending; and an enabled Next
on a live, unfinished session does advance the index. -/
theorem C6_advance_gating (t : Nat) (a : UserAction) (s : SessionState) :
    ((step t a s).1.trial_index = s.trial_index ∨
      (a = UserAction.next ∧ s.decision_locked = true ∧
        s.pending_justification = false ∧
        (step t a s).1.trial_index = s.trial_index + 1)) ∧
    (canNext s = (s.decision_locked && ! s.pending_justification)) ∧
    ((step t UserAction.next s).1.trial_index = s.trial_index + 1 ∨
      s.stopped = true ∨ canNext s = false ∨
      N_CANDIDATES ≤ s.trial_index) := by
  refine ⟨step_trial_index t a s, rfl, ?_⟩
  by_cases h1 : s.stopped = true
  · exact Or.inr (Or.inl h1)
  by_cases h2 : canNext s = true
  · by_cases h3 : s.trial_index < N_CANDIDATES
    · refine Or.inl ?_
      have hsf : s.stopped = false := by revert h1; cases s.stopped <;> simp
      exact step_next_advances t s hsf h2 h3
    · exact Or.inr (Or.inr (Or.inr (Nat.not_lt.mp h3)))
  · refine Or.inr (Or.inr (Or.inl ?_))
    revert h2; cases canNext s <;> simp

/-- C7: when a justification is pending, submitting text whose trimmed
length is under 5 only produces the validation warning and changes
nothing (the pending flag stays set, no event is emitted); submitting
text whose trimmed length is at least 5 emits exactly one
`override_justification` event with the trimmed text and clears the
pending flag. -/
theorem C7_justification_gate (txt : String) (s : SessionState)
    (hp : s.pending_justification = true) :
    ((strTrim txt).length < 5 →
      justificationHandler txt s = (s, [], true) ∧
      (justificationHandler txt s).1.pending_justification = true) ∧
    (5 ≤ (strTrim txt).length →
      justificationHandler txt s
        = ({ s with pending_justification := false },
           [Event.override_justification (strTrim txt)], false)) := by
  constructor
  · intro h
    unfold justificationHandler
    rw [if_pos h]
    exact ⟨rfl, hp⟩
  · intro h
    unfold justificationHandler
    rw [if_neg (Nat.not_lt.mpr h)]

def wJustState : SessionState :=
  { participant_id := "wp", condition_api := "HIGH_API",
    condition_alg := "BIASED", candidates := [], order := [],
    trial_index := 2, shortlisted := 1, task_start_ms := 0,
    trial_start_ms := 0, decision_locked := true,
    pending_justification := true, last_candidate_id := some "c2",
    details_open_ms := none, stopped := false }

/-- Witness for C7: a 2-character justification is rejected with no state
change; a real sentence is accepted, trimmed, and clears the flag. -/
theorem C7_justification_gate_witness :
    justificationHandler "hi" wJustState = (wJustState, [], true) ∧
    justificationHandler " hello there " wJustState
      = ({ wJustState with pending_justification := false },
         [Event.override_justification "hello there"], false) := by
  have h1 := (C7_justification_gate "hi" wJustState rfl).1 (by decide)
  have h2 := (C7_justification_gate " hello there " wJustState rfl).2 (by decide)
  refine ⟨h1.1, ?_⟩
  rw [h2]
  rfl

/-- C10: the Next handler (when Next is enabled) increments the trial
index by exactly one and resets only the per-trial state: it clears the
decision lock, the pending-justification flag, the open-details
timestamp and the last-candidate marker, while the participant id, both
condition factors, the candidate list, the trial order, the shortlist
counter and the task start time are unchanged. -/
theorem C10_next_frame (s : SessionState) (h : canNext s = true) :
    (nextHandler s).1.trial_index = s.trial_index + 1 ∧
    (nextHandler s).1.decision_locked = false ∧
    (nextHandler s).1.pending_justification = false ∧
    (nextHandler s).1.details_open_ms = none ∧
    (nextHandler s).1.last_candidate_id = none ∧
    (nextHandler s).1.participant_id = s.participant_id ∧
    (nextHandler s).1.condition_api = s.condition_api ∧
    (nextHandler s).1.condition_alg = s.condition_alg ∧
    (nextHandler s).1.candidates = s.candidates ∧
    (nextHandler s).1.order = s.order ∧
    (nextHandler s).1.shortlisted = s.shortlisted ∧
    (nextHandler s).1.task_start_ms = s.task_start_ms := by
  unfold nextHandler
  cases hdet : s.details_open_ms <;> simp [hdet]

def wNextState : SessionState :=
  { participant_id := "wp", condition_api := "LOW_API",
    condition_alg := "JOB_MATCH", candidates := [], order := [],
    trial_index := 3, shortlisted := 2, task_start_ms := 7,
    trial_start_ms := 9, decision_locked := true,
    pending_justification := false, last_candidate_id := some "c3",
    details_open_ms := some 5, stopped := false }

/-- Witness for C10 at a concrete enabled state with the detail panel
open. -/
theorem C10_next_frame_witness :
    (nextHandler wNextState).1.trial_index = 4 ∧
    (nextHandler wNextState).1.details_open_ms = none ∧
    (nextHandler wNextState).1.shortlisted = 2 ∧
    (nextHandler wNextState).1.task_start_ms = 7 := by
  have h := C10_next_frame wNextState (by decide)
  exact ⟨h.1, h.2.2.2.1, h.2.2.2.2.2.2.2.2.2.2.1,
    h.2.2.2.2.2.2.2.2.2.2.2⟩

/-! ## Claim C8: session end and completion code -/

def EndInv (pid : String) (s : SessionState) : Prop :=
  s.participant_id = pid ∧
  s.stopped = decide (N_CANDIDATES ≤ s.trial_index)

lemma step_EndInv (pid : String) (t : Nat) (a : UserAction)
    (s : SessionState) (h : EndInv pid s) : EndInv pid (step t a s).1 := by
  obtain ⟨hpid, hstop⟩ := h
  by_cases hs : s.stopped = true
  · rw [step_stopped_noop t a s hs]; exact ⟨hpid, hstop⟩
  · have hsf : s.stopped = false := by revert hs; cases s.stopped <;> simp
    have hti : ¬ N_CANDIDATES ≤ s.trial_index := by
      intro hcon; rw [hsf] at hstop; simp [hcon] at hstop
    have hh1 : (renderHeader t s).1.stopped = false := by
      rw [renderHeader_stopped, hsf]; simp [hti]
    cases a <;> simp only [step] <;> rw [if_neg hs, if_neg (by simp [hh1])] <;>
      (try split_ifs) <;> (try split) <;>
      refine ⟨by simp [hpid], ?_⟩ <;>
      simp [renderHeader_stopped, hh1, hti, hsf]

lemma step_filter_session_end (pid : String) (t : Nat) (a : UserAction)
    (s : SessionState) (h : EndInv pid s) :
    (step t a s).2.filter isSessionEnd
      = if ((step t a s).1.stopped && ! s.stopped) = true
        then [Event.session_end (completionCode pid)] else [] := by
  obtain ⟨hpid, hstop⟩ := h
  by_cases hs : s.stopped = true
  · rw [step_stopped_noop t a s hs]; simp [hs]
  · have hsf : s.stopped = false := by revert hs; cases s.stopped <;> simp
    have hti : ¬ N_CANDIDATES ≤ s.trial_index := by
      intro hcon; rw [hsf] at hstop; simp [hcon] at hstop
    have hh1 : (renderHeader t s).1.stopped = false := by
      rw [renderHeader_stopped, hsf]; simp [hti]
    have hh2 : (renderHeader t s).2.filter isSessionEnd = [] := by
      rw [renderHeader_filter]; simp [hti]
    cases a <;> simp only [step] <;> rw [if_neg hs, if_neg (by simp [hh1])] <;>
      (try split_ifs) <;> (try split) <;>
      simp_all [renderHeader_filter, renderHeader_stopped, hh2,
        List.filter_append, isSessionEnd] <;>
      (try (split_ifs <;> simp_all <;> omega))

lemma runSteps_stopped (acts : List (Nat × UserAction)) :
    ∀ s : SessionState, s.stopped = true → runSteps s acts = (s, []) := by
  induction acts with
  | nil => intro s _; rfl
  | cons p rest ih =>
    intro s h
    obtain ⟨t, a⟩ := p
    simp [runSteps, step_stopped_noop t a s h, ih s h]

lemma step_stopped_mono (t : Nat) (a : UserAction) (s : SessionState)
    (h : s.stopped = true) : (step t a s).1.stopped = true := by
  rw [step_stopped_noop t a s h]; exact h

lemma runSteps_stopped_mono (acts : List (Nat × UserAction))
    (s : SessionState) (h : s.stopped = true) :
    (runSteps s acts).1.stopped = true := by
  rw [runSteps_stopped acts s h]; exact h

lemma runSteps_session_end (pid : String) (acts : List (Nat × UserAction)) :
    ∀ s : SessionState, EndInv pid s →
      EndInv pid (runSteps s acts).1 ∧
      ((runSteps s acts).2.filter isSessionEnd
        = if ((runSteps s acts).1.stopped && ! s.stopped) = true
          then [Event.session_end (completionCode pid)] else []) := by
  induction acts with
  | nil =>
    intro s h
    refine ⟨h, ?_⟩
    simp [runSteps]
  | cons p rest ih =>
    intro s h
    obtain ⟨t, a⟩ := p
    have h1 := step_EndInv pid t a s h
    have hf1 := step_filter_session_end pid t a s h
    have h2 := ih (step t a s).1 h1
    have hrw1 : (runSteps s ((t, a) :: rest)).1
        = (runSteps (step t a s).1 rest).1 := rfl
    have hrw2 : (runSteps s ((t, a) :: rest)).2
        = (step t a s).2 ++ (runSteps (step t a s).1 rest).2 := rfl
    refine ⟨by rw [hrw1]; exact h2.1, ?_⟩
    rw [hrw2, hrw1, List.filter_append, hf1, h2.2]
    by_cases hb1 : s.stopped = true
    · have hb2 := step_stopped_mono t a s hb1
      have hb3 := runSteps_stopped_mono rest _ hb2
      simp [hb1, hb2, hb3]
    · have hb1f : s.stopped = false := by revert hb1; cases s.stopped <;> simp
      by_cases hb2 : (step t a s).1.stopped = true
      · have hb3 := runSteps_stopped_mono rest _ hb2
        simp [hb1f, hb2, hb3]
      · have hb2f : (step t a s).1.stopped = false := by
          revert hb2; cases (step t a s).1.stopped <;> simp
        simp [hb1f, hb2f]

/-- C8: in any session, all `session_end` events carry the completion
code (the last 8 characters of the participant identifier upper-cased),
the session has stopped exactly when the trial index has reached 12, and
the event stream contains exactly one `session_end` when it has (none
before). -/
theorem C8_completion (pid : String) (cands : List Candidate) (t0 : Nat)
    (acts : List (Nat × UserAction)) :
    ((sessionRun pid cands t0 acts).1.stopped
      = decide (N_CANDIDATES
          ≤ (sessionRun pid cands t0 acts).1.trial_index)) ∧
    ((sessionRun pid cands t0 acts).2.filter isSessionEnd
      = if (sessionRun pid cands t0 acts).1.stopped = true
        then [Event.session_end (completionCode pid)] else []) ∧
    completionCode pid = strUpper (pid.takeRight 8) := by
  have hinv : EndInv pid (initSession pid cands t0).1 := by
    constructor
    · simp [initSession]
    · simp [initSession, renderHeader_stopped, N_CANDIDATES]
  have hstopped0 : (initSession pid cands t0).1.stopped = false := by
    simp [initSession, renderHeader_stopped, N_CANDIDATES]
  have hfilter0 : (initSession pid cands t0).2.filter isSessionEnd = [] := by
    simp [initSession, renderHeader_filter, isSessionEnd, N_CANDIDATES]
  have h := runSteps_session_end pid acts (initSession pid cands t0).1 hinv
  have hrw1 : (sessionRun pid cands t0 acts).1
      = (runSteps (initSession pid cands t0).1 acts).1 := rfl
  have hrw2 : (sessionRun pid cands t0 acts).2
      = (initSession pid cands t0).2
        ++ (runSteps (initSession pid cands t0).1 acts).2 := rfl
  refine ⟨by rw [hrw1]; exact h.1.2, ?_, rfl⟩
  rw [hrw2, hrw1, List.filter_append, hfilter0, h.2, hstopped0]
  simp
